import Mathlib

/-! Verification of the message-analysis and task-dispatch pipeline
(rule-based classifier, AI-result validation, date extraction, and the
task orchestrator) against its natural-language specification.

Texts are modelled as `List Char`; Python `str.lower` is modelled by
`Char.toLower` per character, and Python floats by `Rat`.  The current
datetime (`datetime.now()`) is passed explicitly as a `PyDateTime`
argument (the spec itself calls for an injected reference date).
-/

/-- ASCII whitespace test used to model Python `str.strip`. -/
def pySpace (c : Char) : Bool :=
  c == ' ' || c == '\t' || c == '\n' || c == '\r'

/-- Model of Python `str.strip()`: remove leading and trailing whitespace. -/
def pyStrip (s : List Char) : List Char :=
  ((s.dropWhile pySpace).reverse.dropWhile pySpace).reverse

/-- Model of Python `str.lower()` (per-character lowercasing). -/
def lowerL (s : List Char) : List Char := s.map Char.toLower

/-- Does the string end with a question mark (`str.endswith("?")`)? -/
def endsWithQm (s : List Char) : Bool :=
  match s.getLast? with
  | some c => c == '?'
  | none => false

/-- Word characters for the regex `\b` boundary (ASCII fragment of `\w`). -/
def isWordChar (c : Char) : Bool := c.isAlphanum || c == '_'

/-- Predicate: `startsWithL w s` is true when `s` begins with `w`. -/
def startsWithL : List Char → List Char → Bool
  | [], _ => true
  | _ :: _, [] => false
  | a :: as, b :: bs => a == b && startsWithL as bs

/-- After matching `w` at the head of `s`, is the next character a
word boundary (end of string or a non-word character)? -/
def boundaryAfter (w s : List Char) : Bool :=
  match s.drop w.length with
  | [] => true
  | c :: _ => !isWordChar c

/-- Scanner for the regex search of pattern `w` between word boundaries: `atB` records whether the
previous character was a word boundary. -/
def wbSearchGo (w : List Char) : List Char → Bool → Bool
  | [], atB => atB && w.isEmpty
  | c :: rest, atB =>
      (atB && startsWithL w (c :: rest) && boundaryAfter w (c :: rest)) ||
      wbSearchGo w rest (!isWordChar c)

/-- Model of the regex word-boundary search for a literal word
(or words-with-spaces) pattern `w`. -/
def wbSearch (w s : List Char) : Bool := wbSearchGo w s true

/-- Model of the Python substring test `w in s`. -/
def containsSubL : List Char → List Char → Bool
  | w, [] => w.isEmpty
  | w, c :: rest => startsWithL w (c :: rest) || containsSubL w rest

/-- Numeric value of a digit string. -/
def natOfDigits (ds : List Char) : Nat :=
  ds.foldl (fun a c => 10 * a + (c.toNat - 48)) 0

/-- A calendar date, as produced by the year-month-day `strftime` format. -/
structure Date where
  year : Nat
  month : Nat
  day : Nat
deriving DecidableEq, Repr

/-- Model of a Python `datetime`: a proleptic-Gregorian calendar day plus
the time of day (in seconds since midnight).  `datetime(y, m, d)` has
`secs = 0`; `datetime.now()` generally has `secs > 0`. -/
structure PyDateTime where
  year : Nat
  month : Nat
  day : Nat
  secs : Nat
deriving DecidableEq, Repr

/-- The calendar-date part of a datetime (what the date-only `strftime` keeps). -/
def toDate (t : PyDateTime) : Date := ⟨t.year, t.month, t.day⟩

/-- Gregorian leap-year rule. -/
def isLeapYear (y : Nat) : Bool :=
  (y % 4 == 0 && !(y % 100 == 0)) || y % 400 == 0

/-- Days in a Gregorian month. -/
def daysInMonth (y m : Nat) : Nat :=
  if m == 2 then (if isLeapYear y then 29 else 28)
  else if m == 4 || m == 6 || m == 9 || m == 11 then 30 else 31

/-- Successor day in the Gregorian calendar (time of day untouched). -/
def nextDay (t : PyDateTime) : PyDateTime :=
  if t.day < daysInMonth t.year t.month then { t with day := t.day + 1 }
  else if t.month < 12 then { t with month := t.month + 1, day := 1 }
  else { year := t.year + 1, month := 1, day := 1, secs := t.secs }

/-- Model of `t + timedelta(days := n)`. -/
def addDays : PyDateTime → Nat → PyDateTime
  | t, 0 => t
  | t, n + 1 => nextDay (addDays t n)

/-- Model of `t + timedelta(hours := h)` (only the date part is ever used). -/
def addHours (t : PyDateTime) (h : Nat) : PyDateTime :=
  let s := t.secs + 3600 * h
  addDays { t with secs := s % 86400 } (s / 86400)

/-- Day count of the proleptic Gregorian calendar (the Hinnant civil-date
algorithm, specialised to years `≥ 1` so all arithmetic stays in `Nat`). -/
def daysFromCivil (y m d : Nat) : Nat :=
  let yy := if m ≤ 2 then y - 1 else y
  let era := yy / 400
  let yoe := yy - era * 400
  let mp := if 3 ≤ m then m - 3 else m + 9
  let doy := (153 * mp + 2) / 5 + d - 1
  let doe := yoe * 365 + yoe / 4 - yoe / 100 + doy
  era * 146097 + doe

/-- Model of `datetime.weekday()`: Monday = 0 … Sunday = 6. -/
def pyWeekday (t : PyDateTime) : Nat :=
  (daysFromCivil t.year t.month t.day + 2) % 7

/-- Is `(y, m, d)` a constructible Python date (`datetime(y, m, d)`
does not raise `ValueError`)? -/
def validYMD (y m d : Nat) : Bool :=
  decide (1 ≤ y ∧ y ≤ 9999 ∧ 1 ≤ m ∧ m ≤ 12 ∧ 1 ≤ d ∧ d ≤ daysInMonth y m)

/-- Model of `datetime(y, m, d)` with `ValueError` modelled as `none`. -/
def tryMkDatetime (y m d : Nat) : Option PyDateTime :=
  if validYMD y m d then some ⟨y, m, d, 0⟩ else none

/-- Lexicographic `<` on datetimes (Python datetime comparison). -/
def ltB (a b : PyDateTime) : Bool :=
  decide (a.year < b.year ∨ (a.year = b.year ∧
    (a.month < b.month ∨ (a.month = b.month ∧
      (a.day < b.day ∨ (a.day = b.day ∧ a.secs < b.secs))))))

/-- Datetime validity: month and day in calendar range. -/
def validB (t : PyDateTime) : Bool :=
  decide (1 ≤ t.month ∧ t.month ≤ 12 ∧ 1 ≤ t.day ∧ t.day ≤ daysInMonth t.year t.month)

/-- The apostrophe character (used inside two keyword phrases). -/
def apos : Char := Char.ofNat 39

/-- The keyword phrase spelled d-o-n-apostrophe-t followed by " forget". -/
def dontForget : List Char := ("don").data ++ apos :: ("t forget").data

/-- Source list `SimpleMessageAnalyzer.task_keywords` (source order preserved). -/
def task_keywords : List (List Char) :=
  (["todo", "task", "remind", "remember", "need to", "should", "must",
    "have to"].map String.data)
  ++ [dontForget]
  ++ (["please", "could you", "can you", "will you", "deadline", "by",
       "due", "asap", "urgent", "important", "schedule", "meeting", "call",
       "email", "send", "review", "check", "prepare", "finish", "complete",
       "fix", "update", "create"].map String.data)

/-- Source list `SimpleMessageAnalyzer.high_priority_words`. -/
def high_priority_words : List (List Char) :=
  ["urgent", "asap", "critical", "important", "immediately"].map String.data

/-- Source list `SimpleMessageAnalyzer.low_priority_words`. -/
def low_priority_words : List (List Char) :=
  ["whenever", "eventually", "if possible", "when you can"].map String.data

/-- The "strong indicator" phrases of `analyze_message`. -/
def strong_indicators : List (List Char) :=
  [("remind me").data, dontForget] ++ (["need to", "have to", "please"].map String.data)

/-- The polite-request phrases checked by the question override. -/
def question_request_words : List (List Char) :=
  ["could you", "can you", "will you"].map String.data

/-- The `patterns` list of `_extract_due_date`: each `\b...\b` regex with
its fixed day offset (`None` for weekday-resolved patterns), in source
order. -/
def datePatterns : List (List Char × Option Nat) :=
  [(("today").data, some 0), (("tomorrow").data, some 1),
   (("next week").data, some 7), (("next month").data, some 30),
   (("monday").data, none), (("tuesday").data, none),
   (("wednesday").data, none), (("thursday").data, none),
   (("friday").data, none),
   (("end of day").data, some 0), (("eod").data, some 0),
   (("end of week").data, none), (("eow").data, none)]

/-- The `elif` chain of `_extract_due_date` mapping a weekday pattern
(tested by substring of the pattern text, as in the source) to the Python
weekday number; `none` models the `continue` branch. -/
def weekdayTargetOf (pat : List Char) : Option Nat :=
  if containsSubL (("monday").data) pat then some 0
  else if containsSubL (("tuesday").data) pat then some 1
  else if containsSubL (("wednesday").data) pat then some 2
  else if containsSubL (("thursday").data) pat then some 3
  else if containsSubL (("friday").data) pat then some 4
  else if containsSubL (("end of week").data) pat || containsSubL (("eow").data) pat then some 4
  else none

/-- The `days_ahead` computation: Python `(target - weekday) % 7` (floor mod),
then `if days_ahead == 0: days_ahead = 7`. -/
def weekdayOffset (target w : Nat) : Nat :=
  let d := (7 + target - w) % 7
  if d == 0 then 7 else d

/-- The pattern loop of `_extract_due_date`: first matching pattern wins;
fixed offsets add days, weekday patterns resolve via `weekdayOffset`. -/
def findDatePattern : List (List Char × Option Nat) → List Char → PyDateTime → Option Date
  | [], _, _ => none
  | (pat, act) :: rest, ml, today =>
      if wbSearch pat ml then
        match act with
        | some d => some (toDate (addDays today d))
        | none =>
            match weekdayTargetOf pat with
            | some target => some (toDate (addDays today (weekdayOffset target (pyWeekday today))))
            | none => findDatePattern rest ml today
      else findDatePattern rest ml today

/-- Match of `in (\d+) (hours?|days?|weeks?)` at the head of `s`, returning
the amount and the unit (0 = hour, 1 = day, 2 = week, after stripping a trailing s). -/
def matchInAt : List Char → Option (Nat × Nat)
  | 'i' :: 'n' :: ' ' :: rest =>
      let ds := rest.takeWhile Char.isDigit
      if ds.isEmpty then none
      else
        match rest.dropWhile Char.isDigit with
        | ' ' :: rest2 =>
            if startsWithL ("hour").data rest2 then some (natOfDigits ds, 0)
            else if startsWithL ("day").data rest2 then some (natOfDigits ds, 1)
            else if startsWithL ("week").data rest2 then some (natOfDigits ds, 2)
            else none
        | _ => none
  | _ => none

/-- Regex search for the in-N-units pattern (`in`, digits, then hours, days or weeks): leftmost match. -/
def searchInText : List Char → Option (Nat × Nat)
  | [] => none
  | c :: rest =>
      match matchInAt (c :: rest) with
      | some r => some r
      | none => searchInText rest

/-- Is the character a date separator (a slash or dash)? -/
def sepChar (c : Char) : Bool := c == '/' || c == '-'

/-- Greedy `\d{1,2}` at the head of `s`. -/
def parseDayAt : List Char → Option Nat
  | d1 :: d2 :: _ =>
      if d1.isDigit then
        (if d2.isDigit then some (natOfDigits [d1, d2]) else some (natOfDigits [d1]))
      else none
  | d1 :: [] => if d1.isDigit then some (natOfDigits [d1]) else none
  | [] => none

/-- Match of `(\d«1,2»)[slash or dash](\d«1,2»)` at the head of `s`, with the regex
backtracking from the two-digit to the one-digit month. -/
def matchMMDDAt : List Char → Option (Nat × Nat)
  | a :: b :: c :: rest =>
      if a.isDigit && b.isDigit && sepChar c then
        match parseDayAt rest with
        | some d => some (natOfDigits [a, b], d)
        | none => none
      else if a.isDigit && sepChar b then
        match parseDayAt (c :: rest) with
        | some d => some (natOfDigits [a], d)
        | none => none
      else none
  | _ => none

/-- Model of the search for a digit pair separated by slash or dash: leftmost match. -/
def searchMMDD : List Char → Option (Nat × Nat)
  | [] => none
  | c :: rest =>
      match matchMMDDAt (c :: rest) with
      | some r => some r
      | none => searchMMDD rest

/-- Model of `SimpleMessageAnalyzer._extract_due_date(message)` with `datetime.now()`
passed explicitly as `today`; the formatted `strftime` output is kept as
the calendar date itself. -/
def extract_due_date (message : List Char) (today : PyDateTime) : Option Date :=
  let ml := lowerL message
  match findDatePattern datePatterns ml today with
  | some d => some d
  | none =>
      match searchInText ml with
      | some (n, u) =>
          if u == 0 then some (toDate (addHours today n))
          else if u == 1 then some (toDate (addDays today n))
          else some (toDate (addDays today (7 * n)))
      | none =>
          match searchMMDD message with
          | some (m, d) =>
              match tryMkDatetime today.year m d with
              | some dt =>
                  if ltB dt today then
                    match tryMkDatetime (today.year + 1) m d with
                    | some dt2 => some (toDate dt2)
                    | none => none
                  else some (toDate dt)
              | none => none
          | none => none

/-- The `SimpleMessageAnalyzer._extract_tags` keyword clusters (source order). -/
def tag_patterns : List (String × List (List Char)) :=
  [("meeting", ["meeting", "call", "sync", "standup", "discussion"].map String.data),
   ("email", ["email", "mail", "send", "reply", "respond"].map String.data),
   ("review", ["review", "check", "approve", "feedback"].map String.data),
   ("development", ["code", "implement", "fix", "bug", "feature", "deploy"].map String.data),
   ("documentation", ["document", "docs", "write", "update docs"].map String.data),
   ("planning", ["plan", "schedule", "organize", "prepare"].map String.data),
   ("research", ["research", "investigate", "analyze", "find out"].map String.data)]

/-- Model of `SimpleMessageAnalyzer._extract_tags`.  The tag list built by the loop
is duplicate-free, so the Python `list(set(tags))` is a permutation of it;
the hash-dependent set ordering is modelled by keeping the build order. -/
def extract_tags (message : List Char) : List String :=
  let ml := lowerL message
  let tags := (tag_patterns.filter (fun p => p.2.any (fun k => containsSubL k ml))).map (fun p => p.1)
  let tags2 := tags ++
    (if (["urgent", "asap", "critical"].map String.data).any (fun w => containsSubL w ml)
     then ["urgent"] else [])
  tags2.take 5

/-- The title computation of `_extract_task_details`:
take the message up to the first dot, cut to 50 characters, and if that
is exactly 50 characters, trim back to the last space and add an ellipsis. -/
def beforeLastSpace (t : List Char) : List Char :=
  if ' ' ∈ t then (((t.reverse).dropWhile (fun c => c != ' ')).drop 1).reverse else t

/-- Raw title before the final `strip()`. -/
def simple_title (message : List Char) : List Char :=
  let t0 := (message.takeWhile (fun c => c != '.')).take 50
  if t0.length == 50 then beforeLastSpace t0 ++ ("...").data else t0

/-- The priority lookup of `_extract_task_details`. -/
def priorityOf (ml : List Char) : String :=
  if high_priority_words.any (fun w => containsSubL w ml) then "high"
  else if low_priority_words.any (fun w => containsSubL w ml) then "low"
  else "medium"

/-- The `task_details` dict of the rule-based analyzer. -/
structure TaskDetails where
  title : List Char
  description : List Char
  priority : String
  due_date : Option Date
  tags : List String
deriving DecidableEq, Repr

/-- Model of `SimpleMessageAnalyzer._extract_task_details(message)`. -/
def extract_task_details (message : List Char) (today : PyDateTime) : TaskDetails :=
  { title := pyStrip (simple_title message)
    description := message
    priority := priorityOf (lowerL message)
    due_date := extract_due_date message today
    tags := extract_tags message }

/-- Common shape of an analysis result (`analysis_metadata`, which no claim
touches, is omitted).  `D` is the task-details payload type. -/
structure AnalyzerResult (D : Type) where
  is_task : Bool
  confidence : Rat
  task_details : Option D
deriving Repr

/-- The `task_score` local of `analyze_message`: how many keywords occur
as substrings of the lowercased message. -/
def simple_task_score (message : List Char) : Nat :=
  task_keywords.countP (fun kw => containsSubL kw (lowerL message))

/-- The `is_task` local of `analyze_message`: score threshold, then the
strong-indicator override, then the question override (in source order). -/
def simple_is_task (message : List Char) : Bool :=
  let isT0 : Bool := decide (2 ≤ simple_task_score message)
  let isT1 : Bool :=
    if strong_indicators.any (fun s => containsSubL s (lowerL message)) then true else isT0
  if endsWithQm (pyStrip message) &&
     !(question_request_words.any (fun s => containsSubL s (lowerL message))) then false
  else isT1

/-- The `confidence` local of `analyze_message`
(`min(0.9, 0.3 + task_score * 0.15)`), exact in `Rat`. -/
def simple_confidence (message : List Char) : Rat :=
  min (9 / 10) (3 / 10 + ((simple_task_score message) : Rat) * (15 / 100))

/-- Model of `SimpleMessageAnalyzer.analyze_message(message)`; `today` models
`datetime.now()`. -/
def simple_analyze_message (message : List Char) (today : PyDateTime) :
    AnalyzerResult TaskDetails :=
  if simple_is_task message then
    { is_task := true, confidence := simple_confidence message,
      task_details := some (extract_task_details message today) }
  else
    { is_task := false, confidence := 1 - simple_confidence message, task_details := none }

/-- The raw `task_details` dict handed to `LlamaMessageAnalyzer._validate_result`
(fields absent from the model JSON are `none`). -/
structure LlamaRawDetails where
  title : Option String
  description : Option String
  priority : Option String
  due_date : Option String
  tags : Option (List String)
deriving Repr

/-- The raw parsed model response handed to `_validate_result`.
`confidence` models `float(result.get("confidence", 0.0))`. -/
structure LlamaRaw where
  is_task : Option Bool
  confidence : Rat
  task_details : Option LlamaRawDetails
deriving Repr

/-- The validated `task_details` produced by `_validate_result`. -/
structure LlamaDetails where
  title : String
  description : String
  priority : String
  due_date : Option String
  tags : List String
deriving DecidableEq, Repr

/-- Python truthiness of `result.get("task_details")`: a missing key
(`None`) and an empty dict are falsy; a dict with at least one of the
modelled keys is truthy. -/
def truthyRawDetails : Option LlamaRawDetails → Bool
  | none => false
  | some d =>
      d.title.isSome || d.description.isSome || d.priority.isSome ||
      d.due_date.isSome || d.tags.isSome

/-- Model of `LlamaMessageAnalyzer._validate_result`.  The guard models
`if validated["is_task"] and result.get("task_details"):` — the second
conjunct is dict truthiness, not mere presence. -/
def validate_result (r : LlamaRaw) : AnalyzerResult LlamaDetails :=
  let conf := max 0 (min 1 r.confidence)
  let it := r.is_task.getD false
  let td : Option LlamaDetails :=
    if it && truthyRawDetails r.task_details then
      match r.task_details with
      | some d =>
          let p := d.priority.getD ("medium")
          some { title := d.title.getD ("Untitled Task")
                 description := d.description.getD ("")
                 priority := if p == "low" || p == "medium" || p == "high" then p else "medium"
                 due_date := d.due_date
                 tags := d.tags.getD [] }
      | none => none
    else none
  { is_task := it, confidence := conf, task_details := td }

/-- Result dict shape of `MessageAnalyzer._ai_analyze` (only the fields the
claims touch; the `tasks` array is omitted). -/
structure AIWrapperResult where
  contains_task : Bool
  confidence : Option Rat
  error : Option String
deriving Repr

/-- The OpenAI branch of `MessageAnalyzer._ai_analyze`: the parsed JSON
response is returned verbatim; an exception is converted to
`contains_task = false` with the error recorded (and no confidence key). -/
def ai_analyze_openai (resp : Except String AIWrapperResult) : AIWrapperResult :=
  match resp with
  | Except.ok r => r
  | Except.error e => { contains_task := false, confidence := none, error := some e }

/-- The local-analyzer branch of `MessageAnalyzer._ai_analyze`: converts a
simple/llama analyzer result to the wrapper format, carrying
`result.get("confidence", 0.5)` through. -/
def ai_analyze_local {D : Type} (r : AnalyzerResult D) : AIWrapperResult :=
  if r.is_task && r.task_details.isSome then
    { contains_task := true, confidence := some r.confidence, error := none }
  else
    { contains_task := false, confidence := some r.confidence, error := none }

/-- One per-backend outcome row appended by `TaskOrchestrator.create_task`. -/
structure DispatchOutcome where
  platform : String
  success : Bool
  data : Option String
  error : Option String
deriving DecidableEq, Repr

/-- A task backend: `create_task` either returns backend data or raises
(modelled by `Except`).  The task payload is opaque to the orchestrator. -/
structure Backend where
  name : String
  create_task : String → Except String String

/-- The loop body of `TaskOrchestrator.create_task`: try the backend and
convert success or failure into a `DispatchOutcome`. -/
def outcomeOf (b : Backend) (t : String) : DispatchOutcome :=
  match b.create_task t with
  | Except.ok d => { platform := b.name, success := true, data := some d, error := none }
  | Except.error e => { platform := b.name, success := false, data := none, error := some e }

/-- Model of `TaskOrchestrator.create_task`: one outcome per registered manager, in
registration order; a failure is caught and recorded without aborting. -/
def orchestrator_create_task (managers : List Backend) (t : String) : List DispatchOutcome :=
  managers.map (fun m => outcomeOf m t)

/-- The backend kinds of the reference system. -/
inductive ManagerKind
  | todoist
  | notion
deriving DecidableEq, BEq, Repr

/-- The credential configuration consulted by `TaskOrchestrator.__init__`. -/
structure OrchConfig where
  todoist_api_key : String
  notion_api_key : String

/-- Model of `TaskOrchestrator.__init__`: Todoist is registered when its key is a
non-empty string; the body of the Notion branch is a comment plus `pass`, so
Notion is never registered. -/
def init_managers (c : OrchConfig) : List ManagerKind :=
  (if c.todoist_api_key ≠ "" then [ManagerKind.todoist] else []) ++
  (if c.notion_api_key ≠ "" then [] else [])

/-- Example backend that always succeeds. -/
def exBackendOk : Backend := ⟨"TodoistManager", fun _ => Except.ok ("id1")⟩

/-- Example backend that always raises. -/
def exBackendErr : Backend := ⟨"NotionManager", fun _ => Except.error ("boom")⟩

/-- Concrete AI response with an out-of-range confidence. -/
def badAIResponse : AIWrapperResult :=
  { contains_task := true, confidence := some 5, error := none }

/-- Concrete parsed model response: a task with an empty `task_details`
dict (all modelled keys absent) — falsy in Python. -/
def llamaRawEmptyDetails : LlamaRaw :=
  ⟨some true, 1, some (⟨none, none, none, none, none⟩ : LlamaRawDetails)⟩

/-- Concrete parsed model response: a task, but no `task_details` key. -/
def llamaRawNoDetails : LlamaRaw :=
  { is_task := some true, confidence := 1, task_details := none }

/-- Modelled from the spec (refinement target for claim C9): the title is
"trimmed back to the last space of the 50-character prefix", i.e. the
prefix splits at a space and the title is the part before it plus the
ellipsis. -/
def specTitleTrimmed (message : List Char) : Prop :=
  ∃ a b : List Char, message.take 50 = a ++ ' ' :: b ∧
    simple_title message = a ++ ("...").data

/-- Injective rank of a calendar day (months `≤ 12`, days `≤ 31`):
used to show day-stepping strictly increases the date. -/
def keyDT (t : PyDateTime) : Nat := (t.year * 13 + t.month) * 32 + t.day

/-- The same rank on plain dates. -/
def keyD (d : Date) : Nat := (d.year * 13 + d.month) * 32 + d.day

/-! ## Helper lemmas -/

theorem conf_bounds_aux (k : Nat) :
    (3 / 10 : Rat) ≤ min (9 / 10) (3 / 10 + (k : Rat) * (15 / 100)) ∧
    min (9 / 10 : Rat) (3 / 10 + (k : Rat) * (15 / 100)) ≤ 9 / 10 := by
  constructor
  · apply le_min (by norm_num)
    have hk : (0 : Rat) ≤ (k : Rat) := Nat.cast_nonneg k
    nlinarith
  · exact min_le_left _ _

theorem simple_result_cases (message : List Char) (today : PyDateTime) :
    simple_analyze_message message today =
      { is_task := true
        confidence := simple_confidence message
        task_details := some (extract_task_details message today) } ∨
    simple_analyze_message message today =
      { is_task := false
        confidence := 1 - simple_confidence message
        task_details := none } := by
  unfold simple_analyze_message
  cases h : simple_is_task message
  · exact Or.inr (if_neg (by simp))
  · exact Or.inl (if_pos rfl)

theorem simple_confidence_bounds (message : List Char) :
    (3 / 10 : Rat) ≤ simple_confidence message ∧ simple_confidence message ≤ 9 / 10 := by
  unfold simple_confidence
  exact conf_bounds_aux (simple_task_score message)

theorem simple_conf_in_unit (message : List Char) (today : PyDateTime) :
    0 ≤ (simple_analyze_message message today).confidence ∧
    (simple_analyze_message message today).confidence ≤ 1 := by
  obtain ⟨h1, h2⟩ := simple_confidence_bounds message
  rcases simple_result_cases message today with h | h <;> rw [h] <;> dsimp only <;>
    constructor <;> linarith

theorem validate_conf_in_unit (r : LlamaRaw) :
    0 ≤ (validate_result r).confidence ∧ (validate_result r).confidence ≤ 1 := by
  unfold validate_result
  dsimp only
  exact ⟨le_max_left _ _, max_le (by norm_num) (min_le_left _ _)⟩

theorem ai_local_conf {D : Type} (r : AnalyzerResult D) :
    (ai_analyze_local r).confidence = some r.confidence := by
  unfold ai_analyze_local
  split <;> rfl

/-! ## Claim theorems -/

/-- Claim C1: `TaskOrchestrator.create_task` produces exactly one outcome per
registered backend, in registration order; a raising backend yields a
`success := false` outcome carrying the error message, and the outcomes of
the other backends are exactly those obtained with the failing backend
absent from the list. -/
theorem claim_C1_thm (pre post : List Backend) (b : Backend) (t : String) :
    (orchestrator_create_task (pre ++ b :: post) t
      = orchestrator_create_task pre t ++ outcomeOf b t :: orchestrator_create_task post t)
    ∧ (orchestrator_create_task (pre ++ post) t
      = orchestrator_create_task pre t ++ orchestrator_create_task post t)
    ∧ ((orchestrator_create_task (pre ++ b :: post) t).length = pre.length + 1 + post.length)
    ∧ (∀ e, b.create_task t = Except.error e →
        outcomeOf b t = { platform := b.name, success := false, data := none, error := some e })
    ∧ (∀ d, b.create_task t = Except.ok d →
        outcomeOf b t = { platform := b.name, success := true, data := some d, error := none }) := by
  refine ⟨?_, ?_, ?_, ?_, ?_⟩
  · simp [orchestrator_create_task]
  · simp [orchestrator_create_task]
  · simp [orchestrator_create_task]
    omega
  · intro e h
    simp [outcomeOf, h]
  · intro d h
    simp [outcomeOf, h]

/-- Witness for C1 at a concrete failing backend. -/
theorem claim_C1_witness :
    outcomeOf exBackendErr ("t") =
      { platform := "NotionManager", success := false, data := none, error := some ("boom") } :=
  (claim_C1_thm [] [] exBackendErr ("t")).2.2.2.1 ("boom") rfl

/-- Claim C2 (amended): confidence lies in `[0, 1]` for the rule-based
classifier, for the AI-backed classifier validation, and for the
local-analyzer branch of the wrapper; the OpenAI branch of the wrapper returns the
parsed backend response verbatim, with no clamping. -/
theorem claim_C2_thm :
    (∀ (message : List Char) (today : PyDateTime),
        0 ≤ (simple_analyze_message message today).confidence ∧
        (simple_analyze_message message today).confidence ≤ 1)
    ∧ (∀ r : LlamaRaw,
        0 ≤ (validate_result r).confidence ∧ (validate_result r).confidence ≤ 1)
    ∧ (∀ (message : List Char) (today : PyDateTime),
        0 ≤ ((ai_analyze_local (simple_analyze_message message today)).confidence).getD 0 ∧
        ((ai_analyze_local (simple_analyze_message message today)).confidence).getD 0 ≤ 1)
    ∧ (∀ r : LlamaRaw,
        0 ≤ ((ai_analyze_local (validate_result r)).confidence).getD 0 ∧
        ((ai_analyze_local (validate_result r)).confidence).getD 0 ≤ 1)
    ∧ (∀ resp : AIWrapperResult, ai_analyze_openai (Except.ok resp) = resp) := by
  refine ⟨simple_conf_in_unit, validate_conf_in_unit, ?_, ?_, fun _ => rfl⟩
  · intro message today
    rw [ai_local_conf]
    exact simple_conf_in_unit message today
  · intro r
    rw [ai_local_conf]
    exact validate_conf_in_unit r

/-- Counterexample for C2 as stated: with an OpenAI response reporting
confidence 5, the wrapper returns confidence 5, outside `[0, 1]`. -/
theorem claim_C2_cex :
    (ai_analyze_openai (Except.ok badAIResponse)).confidence = some 5 ∧ ¬ ((5 : Rat) ≤ 1) :=
  ⟨rfl, by norm_num⟩

/-- Claim C3 (amended): for the rule-based classifier, task details are
present iff `is_task`; for the AI-backed validation, details are present
iff `is_task` is true AND the raw `task_details` value is truthy in the
Python sense — present and non-empty.  A response with `is_task = true`
whose `task_details` is missing or an empty dict leaves fields absent. -/
theorem claim_C3_thm :
    (∀ (message : List Char) (today : PyDateTime),
        (simple_analyze_message message today).task_details.isSome =
          (simple_analyze_message message today).is_task)
    ∧ (∀ r : LlamaRaw,
        (validate_result r).task_details.isSome =
          ((validate_result r).is_task && truthyRawDetails r.task_details)) := by
  constructor
  · intro message today
    rcases simple_result_cases message today with h | h <;> rw [h] <;> rfl
  · intro r
    unfold validate_result
    cases hb : r.is_task.getD false
    · simp [hb]
    · cases htd : r.task_details with
      | none => simp [hb, htd, truthyRawDetails]
      | some rd =>
          cases htr : truthyRawDetails (some rd) <;> simp [hb, htd, htr]

/-- Counterexample for C3 as stated: a parsed model response with
`is_task = true` but no `task_details` key — and likewise one with an
empty (falsy) `task_details` dict — validates to a result with
`is_task = true` and absent task fields. -/
theorem claim_C3_cex :
    (validate_result llamaRawNoDetails).is_task = true ∧
    (validate_result llamaRawNoDetails).task_details = none ∧
    (validate_result llamaRawEmptyDetails).is_task = true ∧
    (validate_result llamaRawEmptyDetails).task_details = none :=
  ⟨rfl, rfl, rfl, rfl⟩

/-- Claim C4 (amended): the REST list-manager (Todoist) backend is
registered iff its credential is a non-empty string; the page-database
(Notion) backend is never registered — its registration branch is a
no-op in the source — and a missing credential merely omits a backend,
it is never an error (registration is total). -/
theorem claim_C4_thm (c : OrchConfig) :
    (ManagerKind.todoist ∈ init_managers c ↔ c.todoist_api_key ≠ "") ∧
    ManagerKind.notion ∉ init_managers c := by
  rcases c with ⟨tk, nk⟩
  unfold init_managers
  by_cases h1 : tk = "" <;> by_cases h2 : nk = "" <;> simp [h1, h2]

/-- Counterexample for C4 as stated: with only the Notion credential
configured, no backend at all is registered. -/
theorem claim_C4_cex :
    init_managers { todoist_api_key := "", notion_api_key := "secret" } = [] ∧
    ("secret" : String) ≠ "" := by
  constructor
  · simp [init_managers]
  · decide

/-- Claim C5: a message that (after stripping) ends with a question mark
and contains no polite-request phrase is never classified as a task by
the rule-based analyzer, whatever its keyword score or strong
indicators. -/
theorem claim_C5_thm (message : List Char) (today : PyDateTime)
    (hq : endsWithQm (pyStrip message) = true)
    (hpol : question_request_words.any (fun s => containsSubL s (lowerL message)) = false) :
    (simple_analyze_message message today).is_task = false := by
  have h : simple_is_task message = false := by
    unfold simple_is_task
    simp [hq, hpol]
  unfold simple_analyze_message
  rw [if_neg (by simp [h])]

/-- Witness for C5 at a concrete question. -/
theorem claim_C5_witness :
    (simple_analyze_message (("what is the status?").data) ⟨2025, 10, 13, 0⟩).is_task = false :=
  claim_C5_thm _ _ (by decide) (by decide)

/-- Claim C10: the rule-based classifier only ever produces the
priorities "low", "medium", "high" (urgency keywords give "high", never
"urgent"), and the AI-backed revalidation coerces any priority outside
that set — "urgent" included — to "medium". -/
theorem claim_C10_thm :
    (∀ ml : List Char,
        priorityOf ml = "low" ∨ priorityOf ml = "medium" ∨ priorityOf ml = "high")
    ∧ (∀ ml : List Char, containsSubL (("urgent").data) ml = true → priorityOf ml = "high")
    ∧ (∀ (r : LlamaRaw) (d : LlamaDetails), (validate_result r).task_details = some d →
        d.priority = "low" ∨ d.priority = "medium" ∨ d.priority = "high")
    ∧ (∀ (c : Rat) (rd : LlamaRawDetails), rd.priority = some ("urgent") →
        ((validate_result (⟨some true, c, some rd⟩ : LlamaRaw)).task_details.map
          LlamaDetails.priority) = some ("medium")) := by
  refine ⟨?_, ?_, ?_, ?_⟩
  · intro ml
    unfold priorityOf
    split
    · exact Or.inr (Or.inr rfl)
    · split
      · exact Or.inl rfl
      · exact Or.inr (Or.inl rfl)
  · intro ml h
    unfold priorityOf
    have hh : high_priority_words.any (fun w => containsSubL w ml) = true := by
      rw [List.any_eq_true]
      exact ⟨("urgent").data, by simp [high_priority_words], h⟩
    simp [hh]
  · intro r d h
    unfold validate_result at h
    cases hb : r.is_task.getD false <;> rw [hb] at h
    · simp at h
    · cases htd : r.task_details with
      | none => rw [htd] at h; simp at h
      | some rd =>
          rw [htd] at h
          dsimp only at h
          cases htr : truthyRawDetails (some rd)
          · rw [htr] at h
            simp at h
          · rw [htr] at h
            rw [if_pos (show (true && true) = true from rfl), Option.some_inj] at h
            subst h
            dsimp only
            by_cases hc : (rd.priority.getD ("medium") == "low" ||
                rd.priority.getD ("medium") == "medium" ||
                rd.priority.getD ("medium") == "high") = true
            · rw [if_pos hc]
              rw [Bool.or_eq_true, Bool.or_eq_true, beq_iff_eq, beq_iff_eq, beq_iff_eq] at hc
              tauto
            · rw [if_neg hc]
              exact Or.inr (Or.inl rfl)
  · intro c rd h
    simp [validate_result, truthyRawDetails, h]

/-- Witness for C10 at concrete inputs. -/
theorem claim_C10_witness :
    priorityOf (("urgent").data) = "high" ∧
    ((validate_result (⟨some true, 1,
        some (⟨none, none, some ("urgent"), none, none⟩ : LlamaRawDetails)⟩ : LlamaRaw)).task_details.map
      LlamaDetails.priority) = some ("medium") :=
  ⟨claim_C10_thm.2.1 (("urgent").data) (by decide),
   claim_C10_thm.2.2.2 1 _ rfl⟩

/-! ## Date lemmas -/

theorem daysInMonth_pos (y m : Nat) : 1 ≤ daysInMonth y m := by
  unfold daysInMonth
  repeat' split
  all_goals norm_num

theorem daysInMonth_le (y m : Nat) : daysInMonth y m ≤ 31 := by
  unfold daysInMonth
  repeat' split
  all_goals norm_num

theorem validB_iff (t : PyDateTime) :
    validB t = true ↔
      (1 ≤ t.month ∧ t.month ≤ 12 ∧ 1 ≤ t.day ∧ t.day ≤ daysInMonth t.year t.month) := by
  unfold validB
  exact decide_eq_true_iff

theorem nextDay_valid (t : PyDateTime) (h : validB t = true) : validB (nextDay t) = true := by
  rw [validB_iff] at h
  have hp1 := daysInMonth_pos t.year (t.month + 1)
  have hp2 := daysInMonth_pos (t.year + 1) 1
  unfold nextDay
  split
  · rename_i hd
    rw [validB_iff]
    dsimp only
    omega
  · split
    · rename_i hm
      rw [validB_iff]
      dsimp only
      omega
    · rw [validB_iff]
      dsimp only
      omega

theorem keyDT_lt_nextDay (t : PyDateTime) (h : validB t = true) : keyDT t < keyDT (nextDay t) := by
  rw [validB_iff] at h
  have h31 := daysInMonth_le t.year t.month
  unfold nextDay
  split
  · unfold keyDT
    dsimp only
    omega
  · split
    · unfold keyDT
      dsimp only
      omega
    · unfold keyDT
      dsimp only
      omega

theorem addDays_valid (t : PyDateTime) (k : Nat) (h : validB t = true) :
    validB (addDays t k) = true := by
  induction k with
  | zero => exact h
  | succ n ih => exact nextDay_valid _ ih

theorem keyDT_lt_addDays (t : PyDateTime) (k : Nat) (h : validB t = true) (hk : 1 ≤ k) :
    keyDT t < keyDT (addDays t k) := by
  induction k with
  | zero => omega
  | succ n ih =>
      cases Nat.eq_zero_or_pos n with
      | inl h0 =>
          subst h0
          exact keyDT_lt_nextDay t h
      | inr hpos =>
          exact lt_trans (ih hpos) (keyDT_lt_nextDay _ (addDays_valid t n h))

theorem keyD_toDate (t : PyDateTime) : keyD (toDate t) = keyDT t := rfl

theorem toDate_addDays_ne (t : PyDateTime) (k : Nat) (h : validB t = true) (hk : 1 ≤ k) :
    toDate (addDays t k) ≠ toDate t := by
  intro heq
  have h1 := keyDT_lt_addDays t k h hk
  have h2 : keyD (toDate (addDays t k)) = keyD (toDate t) := by rw [heq]
  rw [keyD_toDate, keyD_toDate] at h2
  omega

theorem weekdayOffset_bounds (target w : Nat) :
    1 ≤ weekdayOffset target w ∧ weekdayOffset target w ≤ 7 := by
  unfold weekdayOffset
  have hm : (7 + target - w) % 7 < 7 := Nat.mod_lt _ (by norm_num)
  by_cases h : ((7 + target - w) % 7 == 0) = true
  · rw [if_pos h]
    omega
  · rw [if_neg h]
    rw [beq_iff_eq] at h
    omega

theorem weekdayOffset_self (t : Nat) : weekdayOffset t t = 7 := by
  unfold weekdayOffset
  have h7 : 7 + t - t = 7 := by omega
  rw [h7]
  rfl

theorem findDatePattern_append (pre ps : List (List Char × Option Nat)) (ml : List Char)
    (today : PyDateTime) (h : ∀ p ∈ pre, wbSearch p.1 ml = false) :
    findDatePattern (pre ++ ps) ml today = findDatePattern ps ml today := by
  induction pre with
  | nil => rfl
  | cons p rest ih =>
      obtain ⟨pat, act⟩ := p
      have hp : wbSearch pat ml = false := h (pat, act) (List.mem_cons_self _ _)
      show findDatePattern ((pat, act) :: (rest ++ ps)) ml today = _
      simp only [findDatePattern, hp, Bool.false_eq_true, if_false]
      exact ih (fun q hq => h q (List.mem_cons_of_mem _ hq))

theorem findDatePattern_none (ps : List (List Char × Option Nat)) (ml : List Char)
    (today : PyDateTime) (h : ∀ p ∈ ps, wbSearch p.1 ml = false) :
    findDatePattern ps ml today = none := by
  have := findDatePattern_append ps [] ml today h
  rw [List.append_nil] at this
  rw [this]
  rfl

theorem extract_weekday_eq (message : List Char) (today : PyDateTime)
    (pre rest : List (List Char × Option Nat)) (pat : List Char) (target : Nat)
    (hsplit : datePatterns = pre ++ (pat, (none : Option Nat)) :: rest)
    (hpre : ∀ p ∈ pre, wbSearch p.1 (lowerL message) = false)
    (hpat : wbSearch pat (lowerL message) = true)
    (htgt : weekdayTargetOf pat = some target) :
    extract_due_date message today =
      some (toDate (addDays today (weekdayOffset target (pyWeekday today)))) := by
  unfold extract_due_date
  dsimp only
  rw [hsplit, findDatePattern_append pre _ _ _ hpre]
  simp only [findDatePattern, hpat, if_true, htgt]

theorem extract_fixed_eq (message : List Char) (today : PyDateTime)
    (pre rest : List (List Char × Option Nat)) (pat : List Char) (d : Nat)
    (hsplit : datePatterns = pre ++ (pat, some d) :: rest)
    (hpre : ∀ p ∈ pre, wbSearch p.1 (lowerL message) = false)
    (hpat : wbSearch pat (lowerL message) = true) :
    extract_due_date message today = some (toDate (addDays today d)) := by
  unfold extract_due_date
  dsimp only
  rw [hsplit, findDatePattern_append pre _ _ _ hpre]
  simp only [findDatePattern, hpat, if_true]

/-- Claim C6: when the first date pattern the extractor matches is a
weekday-resolved one, the result is the reference date plus
`(target - weekday) mod 7` days with a zero offset promoted to 7 — so the
result is never the reference date itself, and a reference date already on
the named weekday yields reference + 7 days. -/
theorem claim_C6_thm (message : List Char) (today : PyDateTime)
    (pre rest : List (List Char × Option Nat)) (pat : List Char) (target : Nat)
    (hsplit : datePatterns = pre ++ (pat, (none : Option Nat)) :: rest)
    (hpre : ∀ p ∈ pre, wbSearch p.1 (lowerL message) = false)
    (hpat : wbSearch pat (lowerL message) = true)
    (htgt : weekdayTargetOf pat = some target)
    (hval : validB today = true) :
    extract_due_date message today =
      some (toDate (addDays today (weekdayOffset target (pyWeekday today))))
    ∧ 1 ≤ weekdayOffset target (pyWeekday today)
    ∧ weekdayOffset target (pyWeekday today) ≤ 7
    ∧ (pyWeekday today = target → weekdayOffset target (pyWeekday today) = 7)
    ∧ toDate (addDays today (weekdayOffset target (pyWeekday today))) ≠ toDate today := by
  obtain ⟨hb1, hb2⟩ := weekdayOffset_bounds target (pyWeekday today)
  refine ⟨extract_weekday_eq message today pre rest pat target hsplit hpre hpat htgt,
          hb1, hb2, ?_, toDate_addDays_ne today _ hval hb1⟩
  intro hw
  rw [hw]
  exact weekdayOffset_self target

/-- Witness for C6: "monday" with a Monday reference resolves to the
following Monday, one week later. -/
theorem claim_C6_witness :
    extract_due_date (("monday").data) ⟨2025, 10, 13, 0⟩ = some ⟨2025, 10, 20⟩ := by
  have h := claim_C6_thm (("monday").data) ⟨2025, 10, 13, 0⟩
    [(("today").data, some 0), (("tomorrow").data, some 1),
     (("next week").data, some 7), (("next month").data, some 30)]
    [(("tuesday").data, none), (("wednesday").data, none), (("thursday").data, none),
     (("friday").data, none), (("end of day").data, some 0), (("eod").data, some 0),
     (("end of week").data, none), (("eow").data, none)]
    (("monday").data) 0 rfl (by decide) (by decide) rfl (by decide)
  rw [h.1]
  rfl

/-- Claim C7 (amended): the fixed-offset phrases "today", "tomorrow",
"next week" and "next month" are indeed checked before the weekday names,
and first-match-wins holds; but "end of day"/"eod" come after the weekday
names in the pattern list, so a text containing both an eod phrase and a
weekday name (and none of the four earlier phrases) resolves to the next
weekday — strictly after the reference date — not to reference + 0. -/
theorem claim_C7_thm :
    (∀ (message : List Char) (today : PyDateTime)
       (pre rest : List (List Char × Option Nat)) (pat : List Char) (d : Nat),
        datePatterns = pre ++ (pat, some d) :: rest →
        (∀ p ∈ pre, wbSearch p.1 (lowerL message) = false) →
        wbSearch pat (lowerL message) = true →
        extract_due_date message today = some (toDate (addDays today d)))
    ∧ (∀ (message : List Char) (today : PyDateTime)
         (pre rest : List (List Char × Option Nat)) (pat : List Char) (target : Nat),
        datePatterns = pre ++ (pat, (none : Option Nat)) :: rest →
        (∀ p ∈ pre, wbSearch p.1 (lowerL message) = false) →
        wbSearch pat (lowerL message) = true →
        weekdayTargetOf pat = some target →
        validB today = true →
        (wbSearch (("end of day").data) (lowerL message) = true ∨
         wbSearch (("eod").data) (lowerL message) = true) →
        extract_due_date message today =
          some (toDate (addDays today (weekdayOffset target (pyWeekday today))))
        ∧ toDate (addDays today (weekdayOffset target (pyWeekday today))) ≠ toDate today) := by
  constructor
  · intro message today pre rest pat d hsplit hpre hpat
    exact extract_fixed_eq message today pre rest pat d hsplit hpre hpat
  · intro message today pre rest pat target hsplit hpre hpat htgt hval _
    exact ⟨extract_weekday_eq message today pre rest pat target hsplit hpre hpat htgt,
           toDate_addDays_ne today _ hval
             (weekdayOffset_bounds target (pyWeekday today)).1⟩

/-- Witness for C7 at "eod friday" from a Monday. -/
theorem claim_C7_witness :
    extract_due_date (("eod friday").data) ⟨2025, 10, 13, 0⟩ = some ⟨2025, 10, 17⟩ := by
  have h := claim_C7_thm.2 (("eod friday").data) ⟨2025, 10, 13, 0⟩
    [(("today").data, some 0), (("tomorrow").data, some 1),
     (("next week").data, some 7), (("next month").data, some 30),
     (("monday").data, none), (("tuesday").data, none),
     (("wednesday").data, none), (("thursday").data, none)]
    [(("end of day").data, some 0), (("eod").data, some 0),
     (("end of week").data, none), (("eow").data, none)]
    (("friday").data) 4 rfl (by decide) (by decide) rfl (by decide) (Or.inr (by decide))
  rw [h.1]
  rfl

/-- Counterexample for C7 as stated: "eod friday" from Monday 2025-10-13
contains an eod phrase, yet resolves to Friday 2025-10-17, not to the
reference date + 0 days (2025-10-13). -/
theorem claim_C7_cex :
    wbSearch (("eod").data) (lowerL (("eod friday").data)) = true ∧
    wbSearch (("friday").data) (lowerL (("eod friday").data)) = true ∧
    extract_due_date (("eod friday").data) ⟨2025, 10, 13, 0⟩ = some ⟨2025, 10, 17⟩ ∧
    toDate (addDays (⟨2025, 10, 13, 0⟩ : PyDateTime) 0) = (⟨2025, 10, 13⟩ : Date) ∧
    ((⟨2025, 10, 17⟩ : Date) ≠ (⟨2025, 10, 13⟩ : Date)) :=
  ⟨by decide, by decide, by decide, rfl, by decide⟩

theorem extract_mmdd_eq (message : List Char) (today : PyDateTime) (m d : Nat)
    (hall : ∀ p ∈ datePatterns, wbSearch p.1 (lowerL message) = false)
    (hin : searchInText (lowerL message) = none)
    (hmmdd : searchMMDD message = some (m, d)) :
    extract_due_date message today =
      (match tryMkDatetime today.year m d with
       | some dt =>
           if ltB dt today then
             match tryMkDatetime (today.year + 1) m d with
             | some dt2 => some (toDate dt2)
             | none => none
           else some (toDate dt)
       | none => none) := by
  unfold extract_due_date
  dsimp only
  rw [findDatePattern_none _ _ _ hall, hin, hmmdd]

/-- Claim C8 (amended): when the first matched date phrase is an MM/DD (or
MM-DD) pattern, it is interpreted in the reference year; it rolls to the
following year exactly when midnight of that calendar day is strictly
before the reference instant — so an MM/DD equal to the month and day of
the reference stays in the reference year only when the reference time is
exactly midnight; invalid month/day combinations yield `None` rather than
an error (including a roll into an invalid date such as Feb 29 of a
non-leap following year). -/
theorem claim_C8_thm (message : List Char) (today : PyDateTime) (m d : Nat)
    (hall : ∀ p ∈ datePatterns, wbSearch p.1 (lowerL message) = false)
    (hin : searchInText (lowerL message) = none)
    (hmmdd : searchMMDD message = some (m, d)) :
    (validYMD today.year m d = false → extract_due_date message today = none)
    ∧ (validYMD today.year m d = true → ltB ⟨today.year, m, d, 0⟩ today = false →
        extract_due_date message today = some ⟨today.year, m, d⟩)
    ∧ (validYMD today.year m d = true → ltB ⟨today.year, m, d, 0⟩ today = true →
        validYMD (today.year + 1) m d = true →
        extract_due_date message today = some ⟨today.year + 1, m, d⟩)
    ∧ (validYMD today.year m d = true → ltB ⟨today.year, m, d, 0⟩ today = true →
        validYMD (today.year + 1) m d = false →
        extract_due_date message today = none)
    ∧ (m = today.month → d = today.day → today.secs = 0 →
        validYMD today.year m d = true →
        extract_due_date message today = some ⟨today.year, m, d⟩) := by
  have hb := extract_mmdd_eq message today m d hall hin hmmdd
  have h2 : validYMD today.year m d = true → ltB ⟨today.year, m, d, 0⟩ today = false →
      extract_due_date message today = some ⟨today.year, m, d⟩ := by
    intro hv hlt
    rw [hb]
    unfold tryMkDatetime
    rw [if_pos hv]
    dsimp only
    rw [if_neg (by simp [hlt])]
    rfl
  refine ⟨?_, h2, ?_, ?_, ?_⟩
  · intro hv
    rw [hb]
    unfold tryMkDatetime
    rw [if_neg (by simp [hv])]
  · intro hv hlt hv2
    rw [hb]
    unfold tryMkDatetime
    rw [if_pos hv]
    dsimp only
    rw [if_pos hlt, if_pos hv2]
    rfl
  · intro hv hlt hv2
    rw [hb]
    unfold tryMkDatetime
    rw [if_pos hv]
    dsimp only
    rw [if_pos hlt, if_neg (by simp [hv2])]
  · intro he1 he2 he3 hv
    subst he1
    subst he2
    have hlt : ltB ⟨today.year, today.month, today.day, 0⟩ today = false := by
      unfold ltB
      rw [decide_eq_false_iff_not]
      dsimp only
      omega
    exact h2 hv hlt

/-- Witness for C8: "12/25" from 2025-01-01 midnight stays in 2025. -/
theorem claim_C8_witness :
    extract_due_date (("12/25").data) ⟨2025, 1, 1, 0⟩ = some ⟨2025, 12, 25⟩ :=
  (claim_C8_thm (("12/25").data) ⟨2025, 1, 1, 0⟩ 12 25 (by decide) rfl rfl).2.1
    (by decide) (by decide)

/-- Counterexample for C8 as stated: "9/15" with the reference instant
2025-09-15 noon — the month and day of the reference itself — rolls to 2026-09-15
instead of resolving to the reference year. -/
theorem claim_C8_cex :
    extract_due_date (("9/15").data) ⟨2025, 9, 15, 43200⟩ = some ⟨2026, 9, 15⟩ ∧
    toDate (⟨2025, 9, 15, 43200⟩ : PyDateTime) = (⟨2025, 9, 15⟩ : Date) ∧
    ((⟨2026, 9, 15⟩ : Date) ≠ (⟨2025, 9, 15⟩ : Date)) :=
  ⟨by decide, rfl, by decide⟩

/-! ## Title-truncation lemmas -/

theorem length_dropWhile_le (p : Char → Bool) (l : List Char) :
    (l.dropWhile p).length ≤ l.length := by
  induction l with
  | nil => simp
  | cons c cs ih =>
      rw [List.dropWhile_cons]
      split
      · simp only [List.length_cons]
        omega
      · exact Nat.le_refl _

theorem pyStrip_length_le (s : List Char) : (pyStrip s).length ≤ s.length := by
  unfold pyStrip
  calc ((s.dropWhile pySpace).reverse.dropWhile pySpace).reverse.length
      = ((s.dropWhile pySpace).reverse.dropWhile pySpace).length := List.length_reverse _
    _ ≤ (s.dropWhile pySpace).reverse.length := length_dropWhile_le _ _
    _ = (s.dropWhile pySpace).length := List.length_reverse _
    _ ≤ s.length := length_dropWhile_le _ _

theorem takeWhile_take_eq (p : Char → Bool) (l : List Char) (n : Nat)
    (hmem : ∀ c ∈ l.take n, p c = true) (hn : n ≤ l.length) :
    (l.takeWhile p).take n = l.take n := by
  induction l generalizing n with
  | nil => rfl
  | cons c cs ih =>
      cases n with
      | zero => rfl
      | succ k =>
          have hc : p c = true := hmem c (by simp)
          rw [List.takeWhile_cons_of_pos hc, List.take_succ_cons, List.take_succ_cons]
          rw [ih k
            (fun x hx => hmem x (by rw [List.take_succ_cons]; exact List.mem_cons_of_mem _ hx))
            (by simp only [List.length_cons] at hn; omega)]

theorem dropWhile_space_split (r : List Char) (h : ' ' ∈ r) :
    ∃ u v, r = u ++ ' ' :: v ∧ (' ' ∉ u) ∧
      r.dropWhile (fun c => c != ' ') = ' ' :: v := by
  induction r with
  | nil => simp at h
  | cons c cs ih =>
      by_cases hc : c = ' '
      · subst hc
        exact ⟨[], cs, rfl, by simp, by simp [List.dropWhile_cons]⟩
      · have h' : ' ' ∈ cs := by
          rcases List.mem_cons.mp h with he | hm
          · exact absurd he.symm hc
          · exact hm
        obtain ⟨u, v, h1, h2, h3⟩ := ih h'
        refine ⟨c :: u, v, by rw [List.cons_append, ← h1], ?_, ?_⟩
        · simp only [List.mem_cons, not_or]
          exact ⟨fun hh => hc hh.symm, h2⟩
        · rw [List.dropWhile_cons, if_pos (by simp [hc])]
          exact h3

theorem beforeLastSpace_spec (t : List Char) (h : ' ' ∈ t) :
    ∃ b, t = beforeLastSpace t ++ ' ' :: b ∧ ' ' ∉ b := by
  have hr : ' ' ∈ t.reverse := by simpa using h
  obtain ⟨u, v, h1, h2, h3⟩ := dropWhile_space_split t.reverse hr
  have hbls : beforeLastSpace t = v.reverse := by
    unfold beforeLastSpace
    rw [if_pos h, h3]
    rfl
  refine ⟨u.reverse, ?_, by simpa using h2⟩
  rw [hbls]
  have ht : t = (u ++ ' ' :: v).reverse := by rw [← h1, List.reverse_reverse]
  rw [ht]
  simp

theorem beforeLastSpace_of_no_space (t : List Char) (h : ' ' ∉ t) : beforeLastSpace t = t := by
  unfold beforeLastSpace
  rw [if_neg h]

theorem simple_title_eq_of_long (message : List Char)
    (hlen : 120 ≤ message.length) (hdot : ('.') ∉ message.take 50) :
    simple_title message = beforeLastSpace (message.take 50) ++ ("...").data := by
  unfold simple_title
  have h50 : (message.takeWhile (fun c => c != '.')).take 50 = message.take 50 := by
    apply takeWhile_take_eq
    · intro c hc
      have hne : c ≠ '.' := fun he => hdot (he ▸ hc)
      simp [hne]
    · omega
  rw [h50]
  have hlength : (message.take 50).length = 50 := by
    rw [List.length_take]
    omega
  rw [if_pos (by simp [hlength])]

/-- Claim C9 (amended): for a message of at least 120 characters with no
sentence boundary in its first 50 characters, the produced title is at
most 53 characters; when the 50-character prefix contains a space the
title is that prefix trimmed back to its last space plus the ellipsis
(so it ends at a word boundary), but when the prefix contains no space
the title is the raw 50-character cut plus the ellipsis and may split a
word. -/
theorem claim_C9_thm (message : List Char)
    (hlen : 120 ≤ message.length) (hdot : ('.') ∉ message.take 50) :
    (pyStrip (simple_title message)).length ≤ 53
    ∧ (∀ today, (extract_task_details message today).title = pyStrip (simple_title message))
    ∧ (' ' ∈ message.take 50 →
        ∃ b, message.take 50 = beforeLastSpace (message.take 50) ++ ' ' :: b ∧ ' ' ∉ b ∧
          simple_title message = beforeLastSpace (message.take 50) ++ ("...").data)
    ∧ (' ' ∉ message.take 50 →
        simple_title message = message.take 50 ++ ("...").data) := by
  have hst := simple_title_eq_of_long message hlen hdot
  have hlength : (message.take 50).length = 50 := by
    rw [List.length_take]
    omega
  refine ⟨?_, fun today => rfl, ?_, ?_⟩
  · by_cases hsp : ' ' ∈ message.take 50
    · obtain ⟨b, hb1, hb2⟩ := beforeLastSpace_spec _ hsp
      have hlen2 : (beforeLastSpace (message.take 50)).length + (b.length + 1) = 50 := by
        have hcong := congrArg List.length hb1
        rw [hlength] at hcong
        simpa using hcong.symm
      calc (pyStrip (simple_title message)).length
          ≤ (simple_title message).length := pyStrip_length_le _
        _ = (beforeLastSpace (message.take 50)).length + 3 := by
            rw [hst, List.length_append]
            rfl
        _ ≤ 53 := by omega
    · calc (pyStrip (simple_title message)).length
          ≤ (simple_title message).length := pyStrip_length_le _
        _ = 53 := by
            rw [hst, beforeLastSpace_of_no_space _ hsp, List.length_append, hlength]
            rfl
  · intro hsp
    obtain ⟨b, hb1, hb2⟩ := beforeLastSpace_spec _ hsp
    exact ⟨b, hb1, hb2, hst⟩
  · intro hsp
    rw [hst, beforeLastSpace_of_no_space _ hsp]

/-- Witness for C9 at a concrete 120-character message. -/
theorem claim_C9_witness :
    (pyStrip (simple_title (List.replicate 120 ('b')))).length ≤ 53 :=
  (claim_C9_thm (List.replicate 120 ('b')) (by decide) (by decide)).1

/-- Counterexample for C9 as stated: a 120-character single word is cut
mid-word — there is no space to trim back to, so the ellipsized title
does not end at a word boundary. -/
theorem claim_C9_cex :
    simple_title (List.replicate 120 ('a')) = List.replicate 50 ('a') ++ ("...").data ∧
    (' ' ∉ List.replicate 120 ('a')) ∧
    ¬ specTitleTrimmed (List.replicate 120 ('a')) := by
  refine ⟨by decide, by decide, ?_⟩
  rintro ⟨a, b, hab, -⟩
  have hmem : (' ') ∈ (List.replicate 120 ('a')).take 50 := by
    rw [hab]
    exact List.mem_append_right _ (List.mem_cons_self _ _)
  rw [List.take_replicate, List.mem_replicate] at hmem
  exact absurd hmem.2 (by decide)
